import Mathlib

/-!
Shallow embedding of the order-status aggregation service
(`services/status-service/main.go`) of the kubernetes-event-driven-service
repository, together with theorems settling the specification claims.

Modelling conventions:
* Go `time.Time` values are modelled as `Int` seconds since Go's zero time
  (January 1, year 1, 00:00:00 UTC), so `t.IsZero()` becomes `t = 0` and
  `Before`/`After` become `<`/`>`.
* Go `float64` amounts are modelled as `ℚ`; the one division that can
  produce a non-finite `float64` value is modelled by `goDiv`, which
  returns `none` for a zero divisor (NaN/Inf) and `some` of the exact
  quotient otherwise.
* The decoded JSON payload `map[string]interface{}` is modelled as an
  association list from field name to a `JsonVal`; a failed Go type
  assertion corresponds to the lookup not returning the matching
  constructor.
* Go maps (`sm.orders`, `sm.clients`, and the per-connection transport) are
  modelled as association lists; iteration over a map visits the
  association list in order, which is one admissible behaviour of Go's
  unspecified map iteration order.
-/

/-- One decoded JSON field value, as produced by `json.Unmarshal` into
`map[string]interface{}`: a string, a number (Go decodes every JSON number
as `float64`), or anything else. -/
inductive JsonVal where
  | str : String → JsonVal
  | num : ℚ → JsonVal
  | other : JsonVal
deriving DecidableEq

/-- A decoded event payload: field name to value. -/
abbrev Payload := List (String × JsonVal)

/-- Generic association-list lookup, modelling Go map indexing `m[k]`
(with `none` for a missing key). -/
def assocGet? {κ β : Type} [DecidableEq κ] : List (κ × β) → κ → Option β
  | [], _ => none
  | (k, v) :: rest, key => if k = key then some v else assocGet? rest key

/-- Generic association-list update, modelling Go map assignment
`m[k] = v` (replace in place, or add the key if absent). -/
def assocSet {κ β : Type} [DecidableEq κ] : List (κ × β) → κ → β → List (κ × β)
  | [], key, v => [(key, v)]
  | (k, w) :: rest, key, v =>
      if k = key then (key, v) :: rest else (k, w) :: assocSet rest key v

/-- Payload field read with a string type assertion,
`payload[key].(string)`. -/
def getStr (p : Payload) (key : String) : Option String :=
  match assocGet? p key with
  | some (JsonVal.str s) => some s
  | _ => none

/-- Payload field read with a float64 type assertion,
`payload[key].(float64)`. -/
def getNum (p : Payload) (key : String) : Option ℚ :=
  match assocGet? p key with
  | some (JsonVal.num q) => some q
  | _ => none

/-- `EventRecord` from the source: event kind, raw payload
(the source stores the serialized bytes; we keep the decoded payload,
which carries the same information), arrival timestamp. -/
structure EventRecord where
  EventType : String
  Data : Payload
  Timestamp : Int
deriving DecidableEq

/-- `OrderStatus` from the source (the per-order aggregated state). -/
structure OrderStatus where
  OrderID : String
  ProductID : String
  Quantity : Int
  Status : String
  Events : List EventRecord
  LastUpdated : Int
  TrackingNumber : String
  PaymentAmount : ℚ
deriving DecidableEq

/-- The order state store `sm.orders : map[string]*OrderStatus`. -/
abbrev Store := List (String × OrderStatus)

/-- `sm.orders[orderID]` lookup. -/
def lookupOrder (store : Store) (orderID : String) : Option OrderStatus :=
  assocGet? store orderID

/-- The fresh `OrderStatus` materialized for a first event on an unseen
identifier (`&OrderStatus{OrderID: orderID, Status: "created", Events: ...}`;
the remaining fields take Go zero values). -/
def freshOrder (orderID : String) : OrderStatus :=
  { OrderID := orderID, ProductID := "", Quantity := 0, Status := "created",
    Events := [], LastUpdated := 0, TrackingNumber := "", PaymentAmount := 0 }

/-- Truncation of a `float64`-modelled rational to `int`, as Go's
`int(quantity)` conversion (rounds toward zero). -/
def truncRat (q : ℚ) : Int :=
  if 0 ≤ q then Rat.floor q else -(Rat.floor (-q))

/-- The `switch eventType` block of `UpdateOrderStatus`: the effect of one
event kind on the order state (status overwrite plus kind-specific field
extraction), applied unconditionally regardless of current status. -/
def applyTransition (eventType : String) (payload : Payload) (o : OrderStatus) :
    OrderStatus :=
  match eventType with
  | "OrderCreated" =>
      let o1 := match getStr payload "product_id" with
        | some p => { o with ProductID := p }
        | none => o
      let o2 := match getNum payload "quantity" with
        | some q => { o1 with Quantity := truncRat q }
        | none => o1
      { o2 with Status := "created" }
  | "InventoryConfirmed" => { o with Status := "inventory_confirmed" }
  | "InventoryRejected" => { o with Status := "inventory_rejected" }
  | "PaymentCompleted" =>
      let o1 := { o with Status := "payment_completed" }
      match getNum payload "amount" with
      | some a => { o1 with PaymentAmount := a }
      | none => o1
  | "PaymentFailed" => { o with Status := "payment_failed" }
  | "NotificationSent" => { o with Status := "notification_sent" }
  | "Shipped" =>
      let o1 := { o with Status := "shipped" }
      match getStr payload "tracking_number" with
      | some t => { o1 with TrackingNumber := t }
      | none => o1
  | _ => o

/-- The order value written back by `UpdateOrderStatus`: look up or create
the entry, append the `EventRecord`, update `LastUpdated`, then apply the
transition-table effect. -/
def appliedOrder (store : Store) (orderID eventType : String) (payload : Payload)
    (now : Int) : OrderStatus :=
  let o0 := (lookupOrder store orderID).getD (freshOrder orderID)
  let o1 := { o0 with
    Events := o0.Events ++ [{ EventType := eventType, Data := payload, Timestamp := now }],
    LastUpdated := now }
  applyTransition eventType payload o1

/-- `StatusManager.UpdateOrderStatus` restricted to its effect on the
order store (the source mutates the looked-up pointer in place; on an
association list this is a keyed write of the updated value).
The broadcaster side is modelled by `UpdateOrderStatusM` below. -/
def UpdateOrderStatus (store : Store) (orderID eventType : String)
    (payload : Payload) (now : Int) : Store :=
  assocSet store orderID (appliedOrder store orderID eventType payload now)

/-- The transition table of the spec (§4.1): event kind to new status,
`none` for kinds absent from the table. -/
def transitionEffect (eventType : String) : Option String :=
  match eventType with
  | "OrderCreated" => some "created"
  | "InventoryConfirmed" => some "inventory_confirmed"
  | "InventoryRejected" => some "inventory_rejected"
  | "PaymentCompleted" => some "payment_completed"
  | "PaymentFailed" => some "payment_failed"
  | "NotificationSent" => some "notification_sent"
  | "Shipped" => some "shipped"
  | _ => none

/-- One consumed event addressed to an order: identifier, kind, payload,
arrival time. -/
structure IngestEvent where
  orderID : String
  eventType : String
  payload : Payload
  now : Int
deriving DecidableEq

/-- Sequential application of a list of consumed events to the store, as
the ingestion workers do (one admissible interleaving). -/
def applyEvents (store : Store) (evs : List IngestEvent) : Store :=
  evs.foldl (fun st e => UpdateOrderStatus st e.orderID e.eventType e.payload e.now) store

/-- The events history of one order in the store (empty when absent). -/
def eventsOf (store : Store) (orderID : String) : List EventRecord :=
  ((lookupOrder store orderID).map OrderStatus.Events).getD []

/-- The values of the order store, in map-iteration order (modelled as the
association-list order). -/
def storeOrders (store : Store) : List OrderStatus :=
  store.map (fun p => p.2)

/-- The descending-recency ordering used by every listing in the source:
`result[i].LastUpdated.After(result[j].LastUpdated)` as a non-strict total
relation suitable for sorting. -/
def recencyGE (a b : OrderStatus) : Prop :=
  b.LastUpdated ≤ a.LastUpdated

instance : DecidableRel recencyGE := fun a b =>
  inferInstanceAs (Decidable (b.LastUpdated ≤ a.LastUpdated))

instance : IsTotal OrderStatus recencyGE :=
  ⟨fun a b => (Int.le_total b.LastUpdated a.LastUpdated).elim Or.inl Or.inr⟩

instance : IsTrans OrderStatus recencyGE :=
  ⟨fun _ _ _ h1 h2 => le_trans h2 h1⟩

/-- `sort.Slice(result, func(i, j) { return result[i].LastUpdated.After(...) })`:
sort by `LastUpdated`, newest first. -/
def sortByRecency (l : List OrderStatus) : List OrderStatus :=
  List.insertionSort recencyGE l

/-- Leap-year predicate of the proleptic Gregorian calendar, as used by
Go's `time` package. -/
def isLeap (y : Nat) : Bool :=
  y % 4 = 0 && (y % 100 ≠ 0 || y % 400 = 0)

/-- Number of days in a month of a given year. -/
def daysInMonth (y m : Nat) : Nat :=
  if m = 2 then (if isLeap y then 29 else 28)
  else if m = 4 || m = 6 || m = 9 || m = 11 then 30
  else 31

/-- Days from January 1 of year 1 to January 1 of year `y` (year 0 is a
leap year of the proleptic Gregorian calendar). -/
def daysBeforeYear (y : Nat) : Int :=
  if y = 0 then -366
  else ((365 * (y - 1) + (y - 1) / 4 + (y - 1) / 400 - (y - 1) / 100 : Nat) : Int)

/-- Days from January 1 to the first day of month `m` in year `y`. -/
def daysBeforeMonth (y m : Nat) : Nat :=
  ([0, 31, 59, 90, 120, 151, 181, 212, 243, 273, 304, 334].getD (m - 1) 0) +
    (if 2 < m && isLeap y then 1 else 0)

/-- Seconds since Go's zero time (0001-01-01 00:00:00 UTC) of midnight on
the given calendar date. -/
def dateSeconds (y m d : Nat) : Int :=
  86400 * (daysBeforeYear y + (daysBeforeMonth y m : Int) + ((d : Int) - 1))

/-- Decimal digit value of a character. -/
def digitVal (c : Char) : Nat := c.toNat - 48

/-- `time.Parse("2006-01-02", s)`: exactly four digits of year, a dash,
two digits of month (01-12), a dash, two digits of day (valid for the
month, leap years respected), nothing else; `none` on any parse error. -/
def parseDate (s : String) : Option Int :=
  match s.data with
  | [y1, y2, y3, y4, h1, m1, m2, h2, d1, d2] =>
      if y1.isDigit && y2.isDigit && y3.isDigit && y4.isDigit && h1 = '-' &&
         m1.isDigit && m2.isDigit && h2 = '-' && d1.isDigit && d2.isDigit then
        let y := 1000 * digitVal y1 + 100 * digitVal y2 + 10 * digitVal y3 + digitVal y4
        let m := 10 * digitVal m1 + digitVal m2
        let d := 10 * digitVal d1 + digitVal d2
        if 1 ≤ m && m ≤ 12 && 1 ≤ d && d ≤ daysInMonth y m then
          some (dateSeconds y m d)
        else none
      else none
  | _ => none

/-- `OrderFilter` from the source. -/
structure OrderFilter where
  Status : String := ""
  ProductID : String := ""
  DateFrom : String := ""
  DateTo : String := ""
  Limit : Int := 0
  Offset : Int := 0
deriving DecidableEq

/-- The parsed `dateFrom` bound of `GetFilteredOrders`: the Go variable
starts at the zero time and is only overwritten by a successful parse. -/
def filterDateFrom (f : OrderFilter) : Int :=
  if f.DateFrom = "" then 0 else (parseDate f.DateFrom).getD 0

/-- The parsed `dateTo` bound of `GetFilteredOrders`: when the field is
non-empty the end-of-day offset (23h59m59s) is added to the parse result
even when the parse failed and left the zero time in place. -/
def filterDateTo (f : OrderFilter) : Int :=
  if f.DateTo = "" then 0 else (parseDate f.DateTo).getD 0 + 86399

/-- The per-order predicate of the `GetFilteredOrders` scan loop: an order
survives the status, product, and date-window checks. -/
def matchesFilter (f : OrderFilter) (v : OrderStatus) : Bool :=
  (f.Status == "" || v.Status == f.Status) &&
  (f.ProductID == "" || v.ProductID == f.ProductID) &&
  (filterDateFrom f == 0 || !(v.LastUpdated < filterDateFrom f)) &&
  (filterDateTo f == 0 || !(filterDateTo f < v.LastUpdated))

/-- The pagination tail of `GetFilteredOrders`: offset (returning an empty
slice when it reaches past the end) and then limit, each active only when
positive. -/
def paginate (f : OrderFilter) (l : List OrderStatus) : List OrderStatus :=
  let afterOffset :=
    if 0 < f.Offset then
      (if (l.length : Int) ≤ f.Offset then [] else l.drop f.Offset.toNat)
    else l
  if 0 < f.Limit && f.Limit < (afterOffset.length : Int) then
    afterOffset.take f.Limit.toNat
  else afterOffset

/-- `StatusManager.GetFilteredOrders`: linear scan with the filter
predicate, sort by recency, then pagination. -/
def GetFilteredOrders (store : Store) (f : OrderFilter) : List OrderStatus :=
  paginate f (sortByRecency ((storeOrders store).filter (matchesFilter f)))

/-- Go `float64` division restricted to this service: `none` stands for
the non-finite results (NaN or an infinity) produced by a zero divisor. -/
def goDiv (a b : ℚ) : Option ℚ :=
  if b = 0 then none else some (a / b)

/-- Statuses of the "payment recognized" revenue set. -/
def revenueStatus (s : String) : Bool :=
  s == "payment_completed" || s == "shipped"

/-- The fields of `OrderStatistics` that the claims are about.
`AverageOrderValue` is an `Option ℚ`: `none` models the NaN stored when
the division by `completedOrders` has a zero divisor. -/
structure OrderStatistics where
  TotalOrders : Nat
  TotalRevenue : ℚ
  AverageOrderValue : Option ℚ
  CompletionRate : ℚ
  RecentOrders : List OrderStatus
deriving DecidableEq

/-- Revenue accumulated by the `GetStatistics` scan: `PaymentAmount`
summed over orders whose status is in the revenue set. -/
def totalRevenueOf (l : List OrderStatus) : ℚ :=
  ((l.filter fun o => revenueStatus o.Status).map OrderStatus.PaymentAmount).sum

/-- `completedOrders` of the `GetStatistics` scan: the count of orders in
the revenue set. -/
def completedOrdersOf (l : List OrderStatus) : Nat :=
  (l.filter fun o => revenueStatus o.Status).length

/-- `StatusManager.GetStatistics` (the claim-relevant fields): one scan of
the store accumulating totals, collecting the first ten orders met in
iteration order as `recentOrders`, sorting those by recency, and the two
ratios guarded by `TotalOrders > 0` only. -/
def GetStatistics (store : Store) : OrderStatistics :=
  let l := storeOrders store
  let totalOrders := l.length
  let totalRevenue := totalRevenueOf l
  let completedOrders := completedOrdersOf l
  { TotalOrders := totalOrders
    TotalRevenue := totalRevenue
    AverageOrderValue :=
      if 0 < totalOrders then goDiv totalRevenue (completedOrders : ℚ) else some 0
    CompletionRate :=
      if 0 < totalOrders then (completedOrders : ℚ) / (totalOrders : ℚ) * 100 else 0
    RecentOrders := sortByRecency (l.take 10) }

/-- ASCII lower-casing of one character (the queries and fields of the
claims are ASCII; Go applies Unicode lowering which agrees on ASCII). -/
def asciiToLower (c : Char) : Char :=
  if 'A' ≤ c && c ≤ 'Z' then Char.ofNat (c.toNat + 32) else c

/-- `strings.ToLower`. -/
def strToLower (s : String) : String :=
  String.mk (s.data.map asciiToLower)

/-- `strings.Contains(s, sub)`: `sub` occurs contiguously in `s`. -/
def strContains (s sub : String) : Prop :=
  sub.data <:+: s.data

instance (s sub : String) : Decidable (strContains s sub) :=
  inferInstanceAs (Decidable (sub.data <:+: s.data))

/-- The per-order predicate of the `SearchOrders` scan: the lowered query
occurs in the lowered order identifier, product identifier, status, or
tracking number. -/
def matchesQuery (query : String) (o : OrderStatus) : Bool :=
  let ql := strToLower query
  decide (strContains (strToLower o.OrderID) ql) ||
  decide (strContains (strToLower o.ProductID) ql) ||
  decide (strContains (strToLower o.Status) ql) ||
  decide (strContains (strToLower o.TrackingNumber) ql)

/-- `StatusManager.SearchOrders`: linear scan with the query predicate,
then sort by recency. -/
def SearchOrders (store : Store) (query : String) : List OrderStatus :=
  sortByRecency ((storeOrders store).filter (matchesQuery query))

/-- The `searchOrders` HTTP handler: an empty `q` is rejected as a
validation error (`none`, HTTP 400) instead of producing a result list. -/
def searchOrdersHandler (store : Store) (query : String) :
    Option (List OrderStatus) :=
  if query = "" then none else some (SearchOrders store query)

/-- The delivered-message log of the push transports: for each connection
(numbered by `Nat`), the snapshots written to it so far, in order. The
source writes to `*websocket.Conn`; the log records those writes so that
delivery-order properties can be stated. All writes succeed in this model
(the failure-triggered removal path is not exercised by the claims). -/
abbrev SentLog := List (Nat × List OrderStatus)

/-- Snapshots delivered to connection `c` so far. -/
def sentAt (sent : SentLog) (c : Nat) : List OrderStatus :=
  (assocGet? sent c).getD []

/-- One successful `conn.WriteMessage` of a snapshot to connection `c`. -/
def pushMsg (sent : SentLog) (c : Nat) (msg : OrderStatus) : SentLog :=
  assocSet sent c (sentAt sent c ++ [msg])

/-- `StatusManager`: the order store, the subscriber registry
`clients : map[string][]*websocket.Conn`, and the transport log. -/
structure StatusManager where
  orders : Store
  clients : List (String × List Nat)
  sent : SentLog
deriving DecidableEq

/-- `sm.clients[orderID]` (Go yields nil, i.e. the empty slice, for a
missing key). -/
def clientsOf (sm : StatusManager) (orderID : String) : List Nat :=
  (assocGet? sm.clients orderID).getD []

/-- `StatusManager.notifyClients`: write the snapshot to every registered
subscriber of the order, in registration order. -/
def notifyClients (sm : StatusManager) (orderID : String) (order : OrderStatus) :
    StatusManager :=
  { sm with sent := (clientsOf sm orderID).foldl (fun s c => pushMsg s c order) sm.sent }

/-- `StatusManager.AddClient`: append the connection to the order's
subscriber list, then send the current snapshot once — but only when the
order already exists in the store. -/
def AddClient (sm : StatusManager) (orderID : String) (c : Nat) : StatusManager :=
  let sm1 := { sm with clients := assocSet sm.clients orderID (clientsOf sm orderID ++ [c]) }
  match lookupOrder sm1.orders orderID with
  | some o => { sm1 with sent := pushMsg sm1.sent c o }
  | none => sm1

/-- `StatusManager.UpdateOrderStatus` including its final
`notifyClients(orderID, order)` call: the store write of
`UpdateOrderStatus` followed by one push of the updated snapshot per
registered subscriber of that order. -/
def UpdateOrderStatusM (sm : StatusManager) (e : IngestEvent) : StatusManager :=
  let o := appliedOrder sm.orders e.orderID e.eventType e.payload e.now
  notifyClients { sm with orders := assocSet sm.orders e.orderID o } e.orderID o

/-- Sequential application of consumed events at the manager level. -/
def applyEventsM (sm : StatusManager) (evs : List IngestEvent) : StatusManager :=
  evs.foldl UpdateOrderStatusM sm

/-- Scenario D of the spec: events producing two `payment_completed`
orders with amounts 10.00 and 20.00 and one `inventory_rejected` order,
applied to an empty store. -/
def scenarioDStore : Store :=
  applyEvents []
    [ { orderID := "A", eventType := "PaymentCompleted",
        payload := [("amount", JsonVal.num 10)], now := 1 },
      { orderID := "B", eventType := "PaymentCompleted",
        payload := [("amount", JsonVal.num 20)], now := 2 },
      { orderID := "C", eventType := "InventoryRejected", payload := [], now := 3 } ]

/-- A store holding one order whose `LastUpdated` is a present-day
timestamp (far after Go's zero time). -/
def oneOrderStore : Store :=
  [("X", { freshOrder "X" with LastUpdated := 1700000000 })]

/-- An order with the given identifier and `LastUpdated`, for concrete
counterexamples. -/
def stampedOrder (orderID : String) (t : Int) : OrderStatus :=
  { freshOrder orderID with LastUpdated := t }

/-- A store of eleven orders whose map-iteration order starts at the
oldest (`LastUpdated = 0`) and ends at the newest (`LastUpdated = 10`). -/
def elevenOrderStore : Store :=
  [("0", stampedOrder "0" 0), ("1", stampedOrder "1" 1), ("2", stampedOrder "2" 2),
   ("3", stampedOrder "3" 3), ("4", stampedOrder "4" 4), ("5", stampedOrder "5" 5),
   ("6", stampedOrder "6" 6), ("7", stampedOrder "7" 7), ("8", stampedOrder "8" 8),
   ("9", stampedOrder "9" 9), ("10", stampedOrder "10" 10)]

theorem assocGet?_assocSet_self {κ β : Type} [DecidableEq κ]
    (s : List (κ × β)) (k : κ) (v : β) : assocGet? (assocSet s k v) k = some v := by
  induction s with
  | nil => simp [assocSet, assocGet?]
  | cons hd rest ih =>
      obtain ⟨a, b⟩ := hd
      by_cases h : a = k <;> simp [assocSet, assocGet?, h, ih]

theorem assocGet?_assocSet_ne {κ β : Type} [DecidableEq κ]
    (s : List (κ × β)) (k : κ) (v : β) (k' : κ) (h : k' ≠ k) :
    assocGet? (assocSet s k v) k' = assocGet? s k' := by
  induction s with
  | nil => simp [assocSet, assocGet?, h, Ne.symm h]
  | cons hd rest ih =>
      obtain ⟨a, b⟩ := hd
      by_cases ha : a = k
      · subst ha
        simp [assocSet, assocGet?, h, Ne.symm h]
      · simp [assocSet, assocGet?, ha, ih]

theorem applyTransition_Status (ty : String) (p : Payload) (o : OrderStatus) :
    (applyTransition ty p o).Status = (transitionEffect ty).getD o.Status := by
  unfold applyTransition transitionEffect
  split <;>
    first
      | rfl
      | (cases getNum p "amount" <;> rfl)
      | (cases getStr p "tracking_number" <;> rfl)

theorem applyTransition_Events (ty : String) (p : Payload) (o : OrderStatus) :
    (applyTransition ty p o).Events = o.Events := by
  unfold applyTransition
  split <;>
    first
      | rfl
      | (cases getNum p "amount" <;> rfl)
      | (cases getStr p "tracking_number" <;> rfl)
      | (cases getStr p "product_id" <;> cases getNum p "quantity" <;> rfl)

theorem lookupOrder_update_self (store : Store) (orderID ty : String)
    (p : Payload) (t : Int) :
    lookupOrder (UpdateOrderStatus store orderID ty p t) orderID =
      some (appliedOrder store orderID ty p t) :=
  assocGet?_assocSet_self store orderID _

theorem lookupOrder_update_ne (store : Store) (orderID ty : String)
    (p : Payload) (t : Int) (k : String) (h : k ≠ orderID) :
    lookupOrder (UpdateOrderStatus store orderID ty p t) k = lookupOrder store k :=
  assocGet?_assocSet_ne store orderID _ k h

theorem eventsOf_update_self (store : Store) (orderID ty : String)
    (p : Payload) (t : Int) :
    eventsOf (UpdateOrderStatus store orderID ty p t) orderID =
      eventsOf store orderID ++ [{ EventType := ty, Data := p, Timestamp := t }] := by
  rw [eventsOf, lookupOrder_update_self]
  have h2 : (appliedOrder store orderID ty p t).Events =
      eventsOf store orderID ++ [{ EventType := ty, Data := p, Timestamp := t }] := by
    simp only [appliedOrder]
    rw [applyTransition_Events]
    cases h : lookupOrder store orderID <;> simp [eventsOf, h, freshOrder]
  simp [h2]

theorem eventsOf_update_ne (store : Store) (orderID ty : String)
    (p : Payload) (t : Int) (k : String) (h : k ≠ orderID) :
    eventsOf (UpdateOrderStatus store orderID ty p t) k = eventsOf store k := by
  rw [eventsOf, lookupOrder_update_ne _ _ _ _ _ _ h, eventsOf]

theorem status_update_of_inTable (store : Store) (orderID ty : String)
    (p : Payload) (t : Int) (h : (transitionEffect ty).isSome) :
    (lookupOrder (UpdateOrderStatus store orderID ty p t) orderID).map OrderStatus.Status =
      transitionEffect ty := by
  rw [lookupOrder_update_self]
  obtain ⟨s, hs⟩ := Option.isSome_iff_exists.mp h
  simp [appliedOrder, applyTransition_Status, hs]

/-- C1: for every order and every nonempty sequence of events whose kinds
are all in the transition table, all addressed to that order, the
resulting status is exactly the transition-table effect of the last event
kind, whatever the earlier events were. -/
theorem C1_transition_determinism (store : Store) (orderID : String)
    (evs : List IngestEvent) (hne : evs ≠ [])
    (hall : ∀ e ∈ evs, e.orderID = orderID ∧ (transitionEffect e.eventType).isSome) :
    (lookupOrder (applyEvents store evs) orderID).map OrderStatus.Status =
      transitionEffect (evs.getLast hne).eventType := by
  induction evs generalizing store with
  | nil => exact absurd rfl hne
  | cons e rest ih =>
      obtain ⟨horder, hsome⟩ := hall e (List.mem_cons_self e rest)
      cases rest with
      | nil =>
          simp only [applyEvents, List.foldl_cons, List.foldl_nil, List.getLast_singleton]
          rw [← horder]
          exact status_update_of_inTable _ _ _ _ _ hsome
      | cons r rs =>
          have hstep : applyEvents store (e :: r :: rs) =
              applyEvents (UpdateOrderStatus store e.orderID e.eventType e.payload e.now)
                (r :: rs) := rfl
          rw [hstep, List.getLast_cons (by simp : r :: rs ≠ [])]
          exact ih _ (by simp : r :: rs ≠ [])
            (fun x hx => hall x (List.mem_cons_of_mem e hx))

/-- Witness for C1 at a concrete input: one in-table event applied to the
empty store. -/
theorem C1_transition_determinism_witness :
    (lookupOrder
        (applyEvents []
          [{ orderID := "X", eventType := "Shipped", payload := [], now := 5 }]) "X").map
        OrderStatus.Status =
      transitionEffect
        (([{ orderID := "X", eventType := "Shipped", payload := [], now := 5 }].getLast
            (by decide) : IngestEvent)).eventType :=
  C1_transition_determinism [] "X" _ (by decide) (by decide)

/-- C2: applying any event (also one whose kind is absent from the
transition table) appends exactly one record to the target order's events
and leaves the existing records untouched, so after any sequence of
applied events the length of an order's events has grown by exactly the
number of events addressed to that order. -/
theorem C2_append_only_history (store : Store) (orderID ty : String)
    (p : Payload) (t : Int) (evs : List IngestEvent) :
    eventsOf (UpdateOrderStatus store orderID ty p t) orderID =
      eventsOf store orderID ++ [{ EventType := ty, Data := p, Timestamp := t }] ∧
    (eventsOf (applyEvents store evs) orderID).length =
      (eventsOf store orderID).length +
        (evs.filter fun e => e.orderID == orderID).length := by
  refine ⟨eventsOf_update_self .., ?_⟩
  induction evs generalizing store with
  | nil => simp [applyEvents]
  | cons e rest ih =>
      have hstep : applyEvents store (e :: rest) =
          applyEvents (UpdateOrderStatus store e.orderID e.eventType e.payload e.now)
            rest := rfl
      rw [hstep]
      by_cases h : e.orderID = orderID
      · subst h
        rw [List.filter_cons_of_pos (by simp)]
        rw [ih]
        rw [eventsOf_update_self]
        simp
        omega
      · rw [List.filter_cons_of_neg (by simpa using h)]
        rw [ih, eventsOf_update_ne _ _ _ _ _ _ (Ne.symm h)]

/-- C4 counterexample: a payment-completed event that carries the amount
under the field name `payment_amount` (as the claim says) sets the status
but leaves the order's `PaymentAmount` at zero, because the code reads the
field `amount`. -/
theorem C4_payment_field_counterexample :
    (lookupOrder
        (UpdateOrderStatus [] "X" "PaymentCompleted"
          [("payment_amount", JsonVal.num 10)] 1) "X").map OrderStatus.PaymentAmount =
      some 0 ∧
    (lookupOrder
        (UpdateOrderStatus [] "X" "PaymentCompleted"
          [("payment_amount", JsonVal.num 10)] 1) "X").map OrderStatus.PaymentAmount ≠
      some 10 := by
  constructor
  · rfl
  · decide

/-- C4 amended: the kind-specific field of a payment-completed event is
`amount`; applying such an event sets the status to `payment_completed`
and the order's `PaymentAmount` to the carried value. -/
theorem C4_payment_amount_amended (store : Store) (orderID : String) (p : Payload)
    (t : Int) (a : ℚ) (h : getNum p "amount" = some a) :
    (lookupOrder (UpdateOrderStatus store orderID "PaymentCompleted" p t) orderID).map
        OrderStatus.Status = some "payment_completed" ∧
    (lookupOrder (UpdateOrderStatus store orderID "PaymentCompleted" p t) orderID).map
        OrderStatus.PaymentAmount = some a := by
  rw [lookupOrder_update_self]
  simp only [appliedOrder]
  constructor <;> simp [applyTransition, h]

/-- Witness for C4 amended at a concrete payment event. -/
theorem C4_payment_amount_amended_witness :
    getNum [("amount", JsonVal.num 25)] "amount" = some 25 ∧
    ((lookupOrder (UpdateOrderStatus [] "X" "PaymentCompleted"
          [("amount", JsonVal.num 25)] 1) "X").map OrderStatus.Status =
        some "payment_completed" ∧
      (lookupOrder (UpdateOrderStatus [] "X" "PaymentCompleted"
          [("amount", JsonVal.num 25)] 1) "X").map OrderStatus.PaymentAmount =
        some 25) :=
  ⟨by decide, C4_payment_amount_amended [] "X" _ 1 25 (by decide)⟩

/-- C10: when the store is non-empty the average-order-value division is
always attempted — its only guard is `TotalOrders > 0` — so a non-empty
store with no revenue-bearing order divides by zero and stores the
non-finite result (`none` in the model). -/
theorem C10_average_division_guard (store : Store)
    (h : 0 < (storeOrders store).length) :
    (GetStatistics store).AverageOrderValue =
      goDiv (totalRevenueOf (storeOrders store))
        ((completedOrdersOf (storeOrders store) : ℚ)) ∧
    (completedOrdersOf (storeOrders store) = 0 →
      (GetStatistics store).AverageOrderValue = none) := by
  constructor
  · simp [GetStatistics, h]
  · intro hc
    simp [GetStatistics, h, hc, goDiv]

/-- Witness for C10: a store holding one order that never completed
payment; the average-order-value division has a zero divisor. -/
theorem C10_average_division_guard_witness :
    0 < (storeOrders oneOrderStore).length ∧
    completedOrdersOf (storeOrders oneOrderStore) = 0 ∧
    (GetStatistics oneOrderStore).AverageOrderValue = none :=
  ⟨by decide, by decide,
    (C10_average_division_guard oneOrderStore (by decide)).2 (by decide)⟩

/-- C3 counterexample: in Scenario D the code's completion rate is the
exact quotient 200/3 percent, which is not the claimed 66.7. -/
theorem C3_completion_rate_counterexample :
    (GetStatistics scenarioDStore).CompletionRate ≠ 667 / 10 := by
  have hlen : (storeOrders scenarioDStore).length = 3 := rfl
  have hcomp : completedOrdersOf (storeOrders scenarioDStore) = 2 := rfl
  simp only [GetStatistics]
  rw [hlen, hcomp]
  norm_num

/-- C3 amended: revenue is summed over `payment_completed` and `shipped`
orders, average order value is that revenue over the revenue-bearing
count, completion rate is the revenue-bearing count over total orders
times 100; Scenario D yields total 3, revenue 30, average 15, and
completion rate 200/3 (≈ 66.67, i.e. 66.7 only after rounding). -/
theorem C3_statistics_amended (store : Store)
    (h1 : 0 < (storeOrders store).length)
    (h2 : 0 < completedOrdersOf (storeOrders store)) :
    (GetStatistics store).TotalOrders = (storeOrders store).length ∧
    (GetStatistics store).TotalRevenue = totalRevenueOf (storeOrders store) ∧
    (GetStatistics store).AverageOrderValue =
      some (totalRevenueOf (storeOrders store) /
        (completedOrdersOf (storeOrders store) : ℚ)) ∧
    (GetStatistics store).CompletionRate =
      (completedOrdersOf (storeOrders store) : ℚ) /
        ((storeOrders store).length : ℚ) * 100 ∧
    (GetStatistics scenarioDStore).TotalOrders = 3 ∧
    (GetStatistics scenarioDStore).TotalRevenue = 30 ∧
    (GetStatistics scenarioDStore).AverageOrderValue = some 15 ∧
    (GetStatistics scenarioDStore).CompletionRate = 200 / 3 := by
  have hlen : (storeOrders scenarioDStore).length = 3 := rfl
  have hcomp : completedOrdersOf (storeOrders scenarioDStore) = 2 := rfl
  have hrev : totalRevenueOf (storeOrders scenarioDStore) = 30 := by
    have h0 : totalRevenueOf (storeOrders scenarioDStore) = [(10 : ℚ), 20].sum := rfl
    rw [h0]
    norm_num
  have hz : (completedOrdersOf (storeOrders store) : ℚ) ≠ 0 := by
    exact_mod_cast Nat.pos_iff_ne_zero.mp h2
  refine ⟨rfl, rfl, by simp [GetStatistics, h1, goDiv, hz], by simp [GetStatistics, h1],
    ?_, ?_, ?_, ?_⟩
  · simp only [GetStatistics]
    rw [hlen]
  · simp only [GetStatistics]
    exact hrev
  · simp only [GetStatistics]
    rw [hlen, hcomp, hrev]
    norm_num [goDiv]
  · simp only [GetStatistics]
    rw [hlen, hcomp]
    norm_num

/-- Witness for C3 amended: Scenario D itself satisfies both positivity
hypotheses. -/
theorem C3_statistics_amended_witness :
    0 < (storeOrders scenarioDStore).length ∧
    0 < completedOrdersOf (storeOrders scenarioDStore) ∧
    ((GetStatistics scenarioDStore).TotalOrders = (storeOrders scenarioDStore).length ∧
      (GetStatistics scenarioDStore).TotalRevenue = totalRevenueOf (storeOrders scenarioDStore) ∧
      (GetStatistics scenarioDStore).AverageOrderValue =
        some (totalRevenueOf (storeOrders scenarioDStore) /
          (completedOrdersOf (storeOrders scenarioDStore) : ℚ)) ∧
      (GetStatistics scenarioDStore).CompletionRate =
        (completedOrdersOf (storeOrders scenarioDStore) : ℚ) /
          ((storeOrders scenarioDStore).length : ℚ) * 100 ∧
      (GetStatistics scenarioDStore).TotalOrders = 3 ∧
      (GetStatistics scenarioDStore).TotalRevenue = 30 ∧
      (GetStatistics scenarioDStore).AverageOrderValue = some 15 ∧
      (GetStatistics scenarioDStore).CompletionRate = 200 / 3) :=
  ⟨by decide, by decide, C3_statistics_amended scenarioDStore (by decide) (by decide)⟩

/-- C5: a malformed `date_to` is not treated as "no filter": the
end-of-day offset is added to the zero time left by the failed parse, so
the date-to bound becomes 23:59:59 of January 1, year 1, and every order
with a present-day `last_updated` is excluded; a malformed `date_from`
does behave as no filter. -/
theorem C5_malformed_dateTo_bug :
    GetFilteredOrders oneOrderStore { DateTo := "garbage" } = [] ∧
    GetFilteredOrders oneOrderStore {} = storeOrders oneOrderStore ∧
    GetFilteredOrders oneOrderStore { DateFrom := "garbage" } = storeOrders oneOrderStore :=
  ⟨rfl, rfl, rfl⟩

/-- C8: `recentOrders` keeps the first ten orders met in map-iteration
order, not the ten most recently updated: in an eleven-order store whose
iteration order starts at the oldest order, the oldest order is in the
list and the newest is not. -/
theorem C8_recent_orders_bug :
    stampedOrder "0" 0 ∈ (GetStatistics elevenOrderStore).RecentOrders ∧
    stampedOrder "10" 10 ∉ (GetStatistics elevenOrderStore).RecentOrders ∧
    (stampedOrder "0" 0).LastUpdated < (stampedOrder "10" 10).LastUpdated := by
  have hre : (GetStatistics elevenOrderStore).RecentOrders =
      [stampedOrder "9" 9, stampedOrder "8" 8, stampedOrder "7" 7, stampedOrder "6" 6,
       stampedOrder "5" 5, stampedOrder "4" 4, stampedOrder "3" 3, stampedOrder "2" 2,
       stampedOrder "1" 1, stampedOrder "0" 0] := rfl
  refine ⟨?_, ?_, ?_⟩
  · rw [hre]
    simp
  · rw [hre]
    simp [stampedOrder, freshOrder]
  · decide

theorem paginate_sublist (f : OrderFilter) (l : List OrderStatus) :
    (paginate f l).Sublist l := by
  simp only [paginate]
  split_ifs <;>
    first
      | exact List.Sublist.refl _
      | exact List.nil_sublist _
      | exact List.take_sublist ..
      | exact List.drop_sublist ..
      | exact (List.take_sublist ..).trans (List.drop_sublist ..)
      | exact (List.take_sublist ..).trans (List.nil_sublist _)

theorem paginate_pairwise (f : OrderFilter) (l : List OrderStatus)
    (h : l.Pairwise recencyGE) : (paginate f l).Pairwise recencyGE :=
  List.Pairwise.sublist (paginate_sublist f l) h

/-- C6: the filtered listing is a subset of the store satisfying the
status/product/date-window predicate, it is sorted by `last_updated`
descending, the set before pagination is exactly the satisfying subset,
and the returned list is the pagination of that sorted set. -/
theorem C6_filter_correctness (store : Store) (f : OrderFilter) :
    (∀ o ∈ GetFilteredOrders store f, o ∈ storeOrders store ∧ matchesFilter f o = true) ∧
    (GetFilteredOrders store f).Pairwise recencyGE ∧
    (∀ o, o ∈ sortByRecency ((storeOrders store).filter (matchesFilter f)) ↔
      o ∈ storeOrders store ∧ matchesFilter f o = true) ∧
    GetFilteredOrders store f =
      paginate f (sortByRecency ((storeOrders store).filter (matchesFilter f))) := by
  refine ⟨?_, ?_, ?_, rfl⟩
  · intro o ho
    have h1 : o ∈ sortByRecency ((storeOrders store).filter (matchesFilter f)) :=
      (paginate_sublist f _).subset ho
    rw [sortByRecency, List.mem_insertionSort] at h1
    exact List.mem_filter.mp h1
  · exact paginate_pairwise f _ (List.sorted_insertionSort recencyGE _)
  · intro o
    rw [sortByRecency, List.mem_insertionSort, List.mem_filter]

/-- Witness for C6 at a concrete store and the empty filter. -/
theorem C6_filter_correctness_witness :
    (stampedOrder "X" 1700000000 ∈ GetFilteredOrders oneOrderStore {} ∧
      (stampedOrder "X" 1700000000 ∈ storeOrders oneOrderStore ∧
        matchesFilter {} (stampedOrder "X" 1700000000) = true)) :=
  ⟨by simp [GetFilteredOrders, paginate, sortByRecency, oneOrderStore, storeOrders,
      stampedOrder, matchesFilter, filterDateFrom, filterDateTo],
    (C6_filter_correctness oneOrderStore {}).1 (stampedOrder "X" 1700000000)
      (by simp [GetFilteredOrders, paginate, sortByRecency, oneOrderStore, storeOrders,
        stampedOrder, matchesFilter, filterDateFrom, filterDateTo])⟩

/-- C7: every order returned by the search contains the case-insensitive
query substring in at least one of identifier, product, status, or
tracking number, no satisfying order is omitted, and the handler rejects
exactly the empty query as a validation error. -/
theorem C7_search_correctness (store : Store) (q : String) :
    (∀ o, o ∈ SearchOrders store q ↔
      o ∈ storeOrders store ∧ matchesQuery q o = true) ∧
    (searchOrdersHandler store q = none ↔ q = "") := by
  constructor
  · intro o
    rw [SearchOrders, sortByRecency, List.mem_insertionSort, List.mem_filter]
  · constructor
    · intro h
      by_contra hq
      simp [searchOrdersHandler, hq] at h
    · intro h
      simp [searchOrdersHandler, h]

/-- C9 counterexample: a subscriber that connects for an identifier with
no observed event receives no initial snapshot at all — the connect-time
send happens only when the order already exists. -/
theorem C9_snapshot_counterexample :
    sentAt (AddClient { orders := [], clients := [], sent := [] } "X" 0).sent 0 = [] ∧
    (sentAt (AddClient { orders := [], clients := [], sent := [] } "X" 0).sent 0).length ≠ 1 := by
  have h0 : sentAt (AddClient { orders := [], clients := [], sent := [] } "X" 0).sent 0 = [] := rfl
  exact ⟨h0, by rw [h0]; decide⟩

theorem sentAt_pushMsg (s : SentLog) (k c : Nat) (msg : OrderStatus) :
    sentAt (pushMsg s k msg) c = if c = k then sentAt s c ++ [msg] else sentAt s c := by
  by_cases h : c = k
  · subst h
    rw [pushMsg, sentAt, assocGet?_assocSet_self]
    simp [sentAt]
  · rw [pushMsg, sentAt, assocGet?_assocSet_ne _ _ _ _ h]
    simp [h, sentAt]

theorem sentAt_foldl_push (l : List Nat) (s : SentLog) (c : Nat) (msg : OrderStatus) :
    sentAt (l.foldl (fun acc k => pushMsg acc k msg) s) c =
      sentAt s c ++ List.replicate (l.count c) msg := by
  induction l generalizing s with
  | nil => simp
  | cons k rest ih =>
      rw [List.foldl_cons, ih, sentAt_pushMsg]
      by_cases h : c = k
      · subst h
        simp [List.count_cons, List.replicate_succ]
      · simp [h, List.count_cons]

theorem sentAt_UpdateOrderStatusM (sm : StatusManager) (e : IngestEvent) (c : Nat) :
    sentAt (UpdateOrderStatusM sm e).sent c =
      sentAt sm.sent c ++
        List.replicate ((clientsOf sm e.orderID).count c)
          (appliedOrder sm.orders e.orderID e.eventType e.payload e.now) :=
  sentAt_foldl_push (clientsOf sm e.orderID) sm.sent c _

theorem applyEventsM_sent_invariant (oid : String) (c : Nat) (us : List IngestEvent) :
    ∀ sm : StatusManager,
      (∀ k, (clientsOf sm k).count c = if k = oid then 1 else 0) →
      (sentAt (applyEventsM sm us).sent c).length =
        (sentAt sm.sent c).length + (us.filter fun u => u.orderID == oid).length ∧
      (sentAt sm.sent c ≠ [] →
        (sentAt (applyEventsM sm us).sent c).head? = (sentAt sm.sent c).head?) := by
  induction us with
  | nil => exact fun sm _ => ⟨by simp [applyEventsM], fun _ => rfl⟩
  | cons u rest ih =>
      intro sm hcount
      have hcount2 : ∀ k, (clientsOf (UpdateOrderStatusM sm u) k).count c =
          if k = oid then 1 else 0 := fun k => hcount k
      have hstep := sentAt_UpdateOrderStatusM sm u c
      have hcnt := hcount u.orderID
      obtain ⟨ih1, ih2⟩ := ih (UpdateOrderStatusM sm u) hcount2
      have hfold : applyEventsM sm (u :: rest) =
          applyEventsM (UpdateOrderStatusM sm u) rest := rfl
      constructor
      · rw [hfold, ih1, hstep]
        by_cases h : u.orderID = oid
        · rw [List.filter_cons_of_pos (by simpa using h)]
          rw [h, if_pos rfl] at hcnt
          rw [h, hcnt]
          simp only [List.length_append, List.length_replicate, List.length_cons]
          omega
        · rw [List.filter_cons_of_neg (by simpa using h)]
          rw [if_neg h] at hcnt
          rw [hcnt]
          simp
      · intro hne
        rw [hfold]
        have hne2 : sentAt (UpdateOrderStatusM sm u).sent c ≠ [] := by
          rw [hstep]
          intro hx
          exact hne (List.append_eq_nil.mp hx).1
        rw [ih2 hne2, hstep]
        cases hl : sentAt sm.sent c with
        | nil => exact absurd hl hne
        | cons a t => simp

/-- C9 amended: when the subscribed order already exists in the store, a
fresh subscriber receives exactly one initial snapshot — the order's
current state — before any mutation-triggered push, and thereafter exactly
one push per applied event addressed to its order. -/
theorem C9_snapshot_then_push_amended (sm : StatusManager) (oid : String) (c : Nat)
    (o : OrderStatus) (us : List IngestEvent)
    (ho : lookupOrder sm.orders oid = some o)
    (hc : ∀ k, (clientsOf sm k).count c = 0)
    (hs : sentAt sm.sent c = []) :
    (sentAt (applyEventsM (AddClient sm oid c) us).sent c).head? = some o ∧
    (sentAt (applyEventsM (AddClient sm oid c) us).sent c).length =
      1 + (us.filter fun u => u.orderID == oid).length := by
  have hsent1 : sentAt (AddClient sm oid c).sent c = [o] := by
    simp only [AddClient, ho]
    rw [sentAt_pushMsg]
    simp [hs]
  have hclients1 : (AddClient sm oid c).clients =
      assocSet sm.clients oid (clientsOf sm oid ++ [c]) := by
    simp only [AddClient, ho]
  have hcount1 : ∀ k, (clientsOf (AddClient sm oid c) k).count c =
      if k = oid then 1 else 0 := by
    intro k
    rw [clientsOf, hclients1]
    by_cases h : k = oid
    · subst h
      rw [assocGet?_assocSet_self]
      simp [List.count_append, hc k]
    · rw [assocGet?_assocSet_ne _ _ _ _ h]
      simpa [clientsOf, h] using hc k
  obtain ⟨h1, h2⟩ := applyEventsM_sent_invariant oid c us (AddClient sm oid c) hcount1
  constructor
  · rw [h2 (by rw [hsent1]; simp), hsent1]
    rfl
  · rw [h1, hsent1]
    simp [Nat.add_comm]

/-- Witness for C9 amended: a store already holding order X, a fresh
subscriber, then one event for X and one for another order. -/
theorem C9_snapshot_then_push_amended_witness :
    lookupOrder ({ orders := [("X", freshOrder "X")], clients := [], sent := [] } :
        StatusManager).orders "X" = some (freshOrder "X") ∧
    ((sentAt (applyEventsM
          (AddClient { orders := [("X", freshOrder "X")], clients := [], sent := [] } "X" 0)
          [{ orderID := "X", eventType := "Shipped", payload := [], now := 5 },
           { orderID := "Y", eventType := "OrderCreated", payload := [], now := 6 }]).sent
        0).head? = some (freshOrder "X") ∧
      (sentAt (applyEventsM
          (AddClient { orders := [("X", freshOrder "X")], clients := [], sent := [] } "X" 0)
          [{ orderID := "X", eventType := "Shipped", payload := [], now := 5 },
           { orderID := "Y", eventType := "OrderCreated", payload := [], now := 6 }]).sent
        0).length =
        1 + (([{ orderID := "X", eventType := "Shipped", payload := [], now := 5 },
           { orderID := "Y", eventType := "OrderCreated", payload := [], now := 6 }] :
            List IngestEvent).filter fun u => u.orderID == "X").length) :=
  ⟨rfl,
    C9_snapshot_then_push_amended _ "X" 0 (freshOrder "X") _ rfl
      (fun k => by simp [clientsOf, assocGet?]) rfl⟩
